import Mathlib

/-!
Verification development for the code-review agent service (`src/function.py`).

The file shallowly embeds the pure logic of the service:

* `extract_headers_and_content` — the markup-to-sections extractor.  The
  BeautifulSoup parse is modelled by working on the stream of parsed elements
  (`Element`, a tag name together with its `get_text()` result); the function
  itself mirrors the Python scan line by line, including Python's truthiness
  test `if current_header:` and the insertion-ordered `dict`.
* `get_confluence_page_content` — the document fetcher, modelled on an
  explicit `HttpResponse`; Python exceptions (`response.json()` decode errors,
  `.get` on a non-dict) are modelled with `Except`.
* `handle_code_review_request`, `backend_agent`, `frontend_agent` — the
  request pipeline and the two endpoints, parameterized by an `Env` of
  external collaborators (object store, HTTP, model), each of which may
  raise (`Except`).

Python's `str.strip()` is modelled by `pyStrip` (strip leading and trailing
whitespace; they agree on the ASCII whitespace the repository's data
contains), `" ".join` by `String.intercalate " "`, and `dict` by an
insertion-ordered association list with update-in-place semantics
(`dictInsert`).
-/

namespace CRA

/-- An element of the parsed markup stream: the tag's name (e.g. `"h2"`,
`"p"`) and its visible text, i.e. the result of `tag.get_text()`. -/
structure Element where
  name : String
  text : String

/-- Python `str.strip()`: remove leading and trailing whitespace.  Defined by
structural recursion on the character list so that it evaluates by `decide`. -/
def pyStrip (s : String) : String :=
  ⟨((s.data.dropWhile Char.isWhitespace).reverse.dropWhile Char.isWhitespace).reverse⟩

/-- The five header tag names recognized by `extract_headers_and_content`
(`["h1", "h2", "h3", "h4", "h5"]` in the `find_all` call and the `in` test). -/
def headerNames : List String := ["h1", "h2", "h3", "h4", "h5"]

/-- `tag.name in ["h1", "h2", "h3", "h4", "h5"]`. -/
def isHeaderName (s : String) : Bool := decide (s ∈ headerNames)

/-- Membership in the six-tag list passed to `soup.find_all`. -/
def isRecognized (e : Element) : Bool := isHeaderName e.name || decide (e.name = "p")

/-- Python truthiness of the `current_header` variable (an `Optional[str]`):
`None` and the empty string are falsy, every other string is truthy. -/
def pyTruthy : Option String → Bool
  | none => false
  | some s => decide (s ≠ "")

/-- Python dict assignment `d[k] = v` on an insertion-ordered dict: update the
existing entry in place, else append a new entry at the end. -/
def dictInsert : List (String × String) → String → String → List (String × String)
  | [], k, v => [(k, v)]
  | p :: ps, k, v => if p.1 = k then (k, v) :: ps else p :: dictInsert ps k v

/-- Dict lookup `d[k]` / `d.get(k)`. -/
def lookupDict : List (String × String) → String → Option String
  | [], _ => none
  | p :: ps, k => if p.1 = k then some p.2 else lookupDict ps k

/-- The key list of a dict, in insertion order. -/
def keys (d : List (String × String)) : List String := d.map Prod.fst

/-- The commit step of the extractor, used both on meeting a new header and
after the scan: `if current_header: content_dict[current_header] =
" ".join(current_content).strip()`. -/
def commitSection (d : List (String × String)) (ch : Option String)
    (cc : List String) : List (String × String) :=
  if pyTruthy ch then dictInsert d (ch.getD "") (pyStrip (String.intercalate " " cc)) else d

/-- The scan of `extract_headers_and_content` over the stream of recognized
tags, carrying `current_header`, `current_content` and `content_dict`. -/
def extractLoop : List Element → Option String → List String →
    List (String × String) → List (String × String)
  | [], ch, cc, d => commitSection d ch cc
  | e :: rest, ch, cc, d =>
    if isHeaderName e.name then
      extractLoop rest (some (pyStrip e.text)) [] (commitSection d ch cc)
    else if decide (e.name = "p") && pyTruthy ch then
      extractLoop rest ch (cc ++ [pyStrip e.text]) d
    else
      extractLoop rest ch cc d

/-- `extract_headers_and_content(content)`: restrict the element stream to the
six recognized tags (`soup.find_all`), then run the scan with
`current_header = None`, `current_content = []`, `content_dict = {}`. -/
def extract_headers_and_content (elems : List Element) : List (String × String) :=
  extractLoop (elems.filter isRecognized) none [] []

/-- A header block of a well-formed guidelines document: one header element
(with its tag name and raw text) followed by the raw texts of its paragraphs. -/
structure Block where
  hname : String
  htext : String
  paras : List String

/-- The element stream of one block: the header followed by its paragraphs. -/
def blockElems (b : Block) : List Element :=
  ⟨b.hname, b.htext⟩ :: b.paras.map (fun t => ⟨"p", t⟩)

/-- The element stream of a whole blockified document. -/
def docOfBlocks : List Block → List Element
  | [] => []
  | b :: bs => blockElems b ++ docOfBlocks bs

/-- The committed text of a section: paragraph texts trimmed, joined with one
space, and the join trimmed. -/
def sectionText (ps : List String) : String :=
  pyStrip (String.intercalate " " (ps.map pyStrip))

/-- The dict effect of one committed block. -/
def insBlock (d : List (String × String)) (b : Block) : List (String × String) :=
  dictInsert d (pyStrip b.htext) (sectionText b.paras)

/-- The last block of the list whose trimmed header text is `k`, if any. -/
def lastBlockFor (blocks : List Block) (k : String) : Option Block :=
  blocks.foldl (fun acc b => if pyStrip b.htext = k then some b else acc) none

/-- A JSON value, as produced by `response.json()`. -/
inductive JValue where
  | null
  | bool (b : Bool)
  | num (n : Int)
  | str (s : String)
  | arr (xs : List JValue)
  | obj (fields : List (String × JValue))

/-- Lookup in a JSON object's field list (Python `dict` lookup). -/
def jLookup : List (String × JValue) → String → Option JValue
  | [], _ => none
  | p :: ps, k => if p.1 = k then some p.2 else jLookup ps k

/-- Python `v.get(k)`: returns `None` for a missing key, and raises
`AttributeError` when `v` is not a dict. -/
def pyDictGet (v : JValue) (k : String) : Except String (Option JValue) :=
  match v with
  | .obj fs => .ok (jLookup fs k)
  | _ => .error "AttributeError"

/-- Python `v.get(k, default)`. -/
def pyDictGetD (v : JValue) (k : String) (default : JValue) : Except String JValue :=
  (pyDictGet v k).map (fun o => o.getD default)

/-- An HTTP response as seen by `get_confluence_page_content`: status code,
body text, and the result of `response.json()` (`none` models a body that is
not valid JSON, on which `.json()` raises). -/
structure HttpResponse where
  status_code : Nat
  text : String
  jsonBody : Option JValue

/-- The value returned by `get_confluence_page_content`: either the tuple
`(page_title, page_content)` or — on a non-200 status — a plain error string.
`page_title` is `data.get("title")`, hence possibly `None`. -/
inductive FetchReturn where
  | pair (title : Option JValue) (content : JValue)
  | errString (s : String)

/-- `get_confluence_page_content`, modelled from the point where the HTTP
response is in hand (the `requests.get` call itself is an external effect,
handled in `Env`).  On status 200 it reads the title and the content at the
nested path `body.storage.value` with `.get` defaults, returning the tuple;
otherwise it returns the f-string `"Error: status_code - text"`. -/
def get_confluence_page_content (resp : HttpResponse) : Except String FetchReturn :=
  if resp.status_code = 200 then
    match resp.jsonBody with
    | none => .error "JSONDecodeError"
    | some data => do
      let title ← pyDictGet data "title"
      let body ← pyDictGetD data "body" (.obj [])
      let storage ← pyDictGetD body "storage" (.obj [])
      let value ← pyDictGetD storage "value" (.str "No content found.")
      .ok (.pair title value)
  else
    .ok (.errString ("Error: " ++ toString resp.status_code ++ " - " ++ resp.text))

/-- The tuple unpacking `title, content = get_confluence_page_content(...)` in
`handle_code_review_request`.  Unpacking a 2-tuple succeeds; unpacking a
string iterates its characters, so it succeeds only for a string of exactly
two characters and raises `ValueError` otherwise. -/
def unpackPair : FetchReturn → Except String (Option JValue × JValue)
  | .pair t c => .ok (t, c)
  | .errString s =>
    match s.data with
    | [c0, c1] => .ok (some (.str (String.singleton c0)), .str (String.singleton c1))
    | _ => .error "ValueError"

/-- `BeautifulSoup(content, "html.parser")` requires a string document; a
non-string (e.g. `None` or a dict at the content path) raises `TypeError`. -/
def asMarkupString : JValue → Except String String
  | .str s => .ok s
  | _ => .error "TypeError"

/-- The fixed `output_format` constant interpolated into both prompts. -/
def output_format : String :=
  "\nAPIs: \n1. Use ESM JavaScript, aiming for the latest stable node version: Pass \n2. If you can, use LLRT (Optional): Fail\n...\nData Pipelines: \n1. Prefer Python, aiming for the latest stable python version: Pass\n...\n"

/-- A single quote character, used by the Python `str(dict)` rendering. -/
def sq : String := String.singleton (Char.ofNat 39)

/-- The string representation of a Python dict, as interpolated by
`Template.substitute` for the `tech_choice_doc` placeholder. -/
def pyDictRepr (d : List (String × String)) : String :=
  "\x7b" ++ String.intercalate ", " (d.map (fun p => sq ++ p.1 ++ sq ++ ": " ++ sq ++ p.2 ++ sq)) ++ "\x7d"

/-- `agent_backend_system_prompt_template.substitute(output_format=of,
tech_choice_doc=doc)`. -/
def agent_backend_system_prompt_template (ofmt doc : String) : String :=
  "\nYou are a code review agent at Firemind, an AWS Advanced Partner specializing in AI and ML solutions. \nYour primary task is to review the backend code of Firemind developers to ensure it aligns with Firemind's technology choices guidelines.\n\nInstructions:\n- Review the code against Firemind's technology choices guidelines, using the guidelines as a checklist.\n- For each guideline, determine whether it has been fully implemented or not. Provide a score of \"Complete\" or \"Incomplete\" for each.\n- Return the results in the specified output format: " ++ ofmt ++ ".\n- Use the header and bullet points from the guidelines to reference each specific point when providing your assessment.\n\nFiremind's technology choice guidelines: \n" ++ doc ++ "\n\nEnsure your feedback is clear and aligned with the expectations for code quality and compliance with Firemind's standards.\n"

/-- `agent_frontend_system_prompt_template.substitute(output_format=of,
tech_choice_doc=doc)`. -/
def agent_frontend_system_prompt_template (ofmt doc : String) : String :=
  "\nYou are a code review agent at Firemind, an AWS Advanced Partner specializing in AI and ML solutions.  \nYour primary task is to review the **frontend code** of Firemind developers to ensure it aligns with Firemind's technology choices guidelines.  \n\nInstructions:\n- Review the code against **Firemind's frontend technology choices guidelines**, using them as a checklist.  \n- Assess **code quality, performance, accessibility, UI/UX best practices, and maintainability**.  \n- For each guideline, determine whether it has been fully implemented or not. Provide a score of **\"Complete\" or \"Incomplete\"** for each.  \n- Return the results in the specified output format: **" ++ ofmt ++ "**.  \n- Use the **header and bullet points** from the guidelines to reference each specific point when providing your assessment.  \n\nFiremind's technology choice guidelines: \n" ++ doc ++ "\n\nEnsure your feedback is clear and aligned with the expectations for code quality and compliance with Firemind's standards.\n"

/-- The external collaborators of one request, each of which may raise:
the parsed request body (`await req.json()`), the object store
(`retrieve_code_file_from_s3`), the wiki HTTP call (`requests.get` for the
given `page_id`), the markup parser (`BeautifulSoup(...).find_all`, a total
function to an element stream), and the model invocation
(`generate_output`, taking system prompt and user message and returning the
first text block of the reply). -/
structure Env where
  body : Except String JValue
  s3_get : Option JValue → Except String String
  wiki : Option JValue → Except String HttpResponse
  parse : String → List Element
  converse : String → String → Except String String

/-- `handle_code_review_request(page_id, file_key, system_prompt_template)`:
fetch the code file, fetch and destructure the wiki page, extract the section
map, render the system prompt, and invoke the model. -/
def handle_code_review_request (env : Env) (page_id file_key : Option JValue)
    (tmpl : String → String → String) : Except String String := do
  let code_file ← env.s3_get file_key
  let resp ← env.wiki page_id
  let fetched ← get_confluence_page_content resp
  let (_title, content) ← unpackPair fetched
  let markup ← asMarkupString content
  let tech_choice_doc := extract_headers_and_content (env.parse markup)
  let system_prompt := tmpl output_format (pyDictRepr tech_choice_doc)
  env.converse system_prompt code_file

/-- The HTTP outcome of one endpoint call: a 200 plain-text success or an
`HTTPException` with a status code and detail message. -/
inductive EndpointResult where
  | success (body : String)
  | failure (status : Nat) (detail : String)

/-- The body of the `try:` block shared by both endpoints: parse the request
body, read `page_id` and `file_key` with `.get`, and run the pipeline. -/
def endpointPipeline (env : Env) (tmpl : String → String → String) : Except String String := do
  let body ← env.body
  let page_id ← pyDictGet body "page_id"
  let file_key ← pyDictGet body "file_key"
  handle_code_review_request env page_id file_key tmpl

/-- `POST /api/v0/BackendAgent`: on success return the model text (HTTP 200);
any exception is caught and converted to `HTTPException(500, "Something went
wrong")`. -/
def backend_agent (env : Env) : EndpointResult :=
  match endpointPipeline env agent_backend_system_prompt_template with
  | .ok t => .success t
  | .error _ => .failure 500 "Something went wrong"

/-- `POST /api/v0/FrontendAgent`: same handler shape with the frontend
template. -/
def frontend_agent (env : Env) : EndpointResult :=
  match endpointPipeline env agent_frontend_system_prompt_template with
  | .ok t => .success t
  | .error _ => .failure 500 "Something went wrong"

/-- The state of the scan after consuming a list of elements (same recursion
as `extractLoop`, without the final commit). -/
def loopState : List Element → Option String → List String →
    List (String × String) → Option String × List String × List (String × String)
  | [], ch, cc, d => (ch, cc, d)
  | e :: rest, ch, cc, d =>
    if isHeaderName e.name then
      loopState rest (some (pyStrip e.text)) [] (commitSection d ch cc)
    else if decide (e.name = "p") && pyTruthy ch then
      loopState rest ch (cc ++ [pyStrip e.text]) d
    else
      loopState rest ch cc d

/-- A block whose header has nonempty trimmed text (a truthy `current_header`). -/
def nonEmptyHeader (b : Block) : Bool := decide (pyStrip b.htext ≠ "")

/-! ### Generic facts about the dict model -/

theorem lookupDict_dictInsert_self (d : List (String × String)) (k v : String) :
    lookupDict (dictInsert d k v) k = some v := by
  induction d with
  | nil => simp [dictInsert, lookupDict]
  | cons p ps ih =>
    by_cases h : p.1 = k
    · simp [dictInsert, lookupDict, h]
    · simp [dictInsert, lookupDict, h, ih]

theorem lookupDict_dictInsert_ne (d : List (String × String)) (k v a : String)
    (hne : a ≠ k) : lookupDict (dictInsert d k v) a = lookupDict d a := by
  have hka : ¬ k = a := fun hh => hne hh.symm
  induction d with
  | nil => simp [dictInsert, lookupDict, hka]
  | cons p ps ih =>
    by_cases h : p.1 = k
    · subst h
      have hpa : ¬ p.1 = a := hka
      simp [dictInsert, lookupDict, hpa]
    · by_cases h2 : p.1 = a <;> simp [dictInsert, lookupDict, h, h2, ih, hka, hne]

theorem mem_keys_dictInsert (d : List (String × String)) (k v a : String) :
    a ∈ keys (dictInsert d k v) ↔ a = k ∨ a ∈ keys d := by
  induction d with
  | nil => simp [dictInsert, keys]
  | cons p ps ih =>
    by_cases h : p.1 = k
    · subst h
      simp [dictInsert, keys]
    · simp only [dictInsert, if_neg h, keys, List.map_cons, List.mem_cons] at ih ⊢
      rw [ih]
      tauto

theorem keys_dictInsert_of_mem (d : List (String × String)) (k v : String)
    (h : k ∈ keys d) : keys (dictInsert d k v) = keys d := by
  induction d with
  | nil => simp [keys] at h
  | cons p ps ih =>
    simp only [keys, List.map_cons, List.mem_cons] at h
    by_cases hk : p.1 = k
    · simp [dictInsert, hk, keys]
    · rcases h with h | h
      · exact absurd h.symm hk
      · have hps := ih h
        simp only [keys] at hps
        simp [dictInsert, hk, keys, hps]

theorem keys_dictInsert_of_not_mem (d : List (String × String)) (k v : String)
    (h : k ∉ keys d) : keys (dictInsert d k v) = keys d ++ [k] := by
  induction d with
  | nil => simp [dictInsert, keys]
  | cons p ps ih =>
    simp only [keys, List.map_cons, List.mem_cons, not_or] at h
    have hpk : ¬ p.1 = k := fun hh => h.1 hh.symm
    have hps := ih h.2
    simp only [keys] at hps
    simp [dictInsert, hpk, keys, hps]

theorem nodup_keys_dictInsert (d : List (String × String)) (k v : String)
    (h : (keys d).Nodup) : (keys (dictInsert d k v)).Nodup := by
  by_cases hm : k ∈ keys d
  · rw [keys_dictInsert_of_mem d k v hm]; exact h
  · rw [keys_dictInsert_of_not_mem d k v hm]
    simp [List.nodup_append, h, hm]

theorem length_keys_dictInsert_le (d : List (String × String)) (k v : String) :
    (keys (dictInsert d k v)).length ≤ (keys d).length + 1 := by
  by_cases hm : k ∈ keys d
  · rw [keys_dictInsert_of_mem d k v hm]; omega
  · rw [keys_dictInsert_of_not_mem d k v hm]; simp

/-! ### Structural lemmas about the extractor scan -/

theorem pyTruthy_some_iff (s : String) : pyTruthy (some s) = true ↔ s ≠ "" := by
  simp [pyTruthy]

theorem commitSection_none (d : List (String × String)) (cc : List String) :
    commitSection d none cc = d := by
  simp [commitSection, pyTruthy]

theorem commitSection_some_empty (d : List (String × String)) (cc : List String) :
    commitSection d (some "") cc = d := by
  simp [commitSection, pyTruthy]

theorem commitSection_some_ne (d : List (String × String)) (s : String)
    (cc : List String) (h : s ≠ "") :
    commitSection d (some s) cc = dictInsert d s (pyStrip (String.intercalate " " cc)) := by
  simp [commitSection, pyTruthy, h]

theorem extractLoop_header (e : Element) (rest : List Element) (ch : Option String)
    (cc : List String) (d : List (String × String)) (h : isHeaderName e.name = true) :
    extractLoop (e :: rest) ch cc d =
      extractLoop rest (some (pyStrip e.text)) [] (commitSection d ch cc) := by
  simp [extractLoop, h]

theorem isHeaderName_p : isHeaderName "p" = false := by decide

theorem extractLoop_para (t : String) (rest : List Element) (ch : Option String)
    (cc : List String) (d : List (String × String)) :
    extractLoop (⟨"p", t⟩ :: rest) ch cc d =
      extractLoop rest ch (if pyTruthy ch then cc ++ [pyStrip t] else cc) d := by
  cases hch : pyTruthy ch <;> simp [extractLoop, isHeaderName_p, hch]

/-- A run of paragraph elements: appended (trimmed) to the accumulator when
the current header is truthy, silently dropped otherwise. -/
theorem extractLoop_paras (ps : List String) (rest : List Element)
    (ch : Option String) (cc : List String) (d : List (String × String)) :
    extractLoop (ps.map (fun t => ⟨"p", t⟩) ++ rest) ch cc d =
      extractLoop rest ch (if pyTruthy ch then cc ++ ps.map pyStrip else cc) d := by
  induction ps generalizing cc with
  | nil => cases pyTruthy ch <;> simp
  | cons t ts ih =>
    cases hch : pyTruthy ch
    · simpa [extractLoop_para, hch] using ih cc
    · simpa [extractLoop_para, hch] using ih (cc ++ [pyStrip t])

theorem extractLoop_append (xs ys : List Element) (ch : Option String)
    (cc : List String) (d : List (String × String)) :
    extractLoop (xs ++ ys) ch cc d =
      extractLoop ys (loopState xs ch cc d).1 (loopState xs ch cc d).2.1
        (loopState xs ch cc d).2.2 := by
  induction xs generalizing ch cc d with
  | nil => simp [loopState]
  | cons e rest ih =>
    by_cases h1 : isHeaderName e.name
    · simp [extractLoop, loopState, h1, ih]
    · by_cases h2 : decide (e.name = "p") && pyTruthy ch
      · simp [extractLoop, loopState, h1, h2, ih]
      · simp [extractLoop, loopState, h1, h2, ih]

/-- Running the scan to the end is committing the final state. -/
theorem extractLoop_eq_commit (xs : List Element) (ch : Option String)
    (cc : List String) (d : List (String × String)) :
    extractLoop xs ch cc d =
      commitSection (loopState xs ch cc d).2.2 (loopState xs ch cc d).1
        (loopState xs ch cc d).2.1 := by
  have h := extractLoop_append xs [] ch cc d
  simpa [extractLoop] using h

/-- A non-header element steps the scan without touching the dict. -/
theorem extractLoop_step_other (e : Element) (rest : List Element)
    (ch : Option String) (cc : List String) (d : List (String × String))
    (h1 : isHeaderName e.name = false) :
    extractLoop (e :: rest) ch cc d =
      if decide (e.name = "p") && pyTruthy ch then
        extractLoop rest ch (cc ++ [pyStrip e.text]) d
      else extractLoop rest ch cc d := by
  simp [extractLoop, h1]

/-- Committing cannot write to a key different from the pending header. -/
theorem lookupDict_commitSection_preserve (d : List (String × String))
    (ch : Option String) (cc : List String) (k : String)
    (hch : pyTruthy ch = true → ch.getD "" ≠ k) :
    lookupDict (commitSection d ch cc) k = lookupDict d k := by
  simp only [commitSection]
  cases hc : pyTruthy ch
  · simp
  · simp only [if_pos rfl]
    exact lookupDict_dictInsert_ne d _ _ k (fun hh => hch hc hh.symm)

/-- If neither the pending header nor any header in the remaining stream has
trimmed text `k`, the scan never writes to key `k`. -/
theorem lookupDict_extractLoop_preserve (xs : List Element) (ch : Option String)
    (cc : List String) (d : List (String × String)) (k : String)
    (hch : pyTruthy ch = true → ch.getD "" ≠ k)
    (hxs : ∀ e ∈ xs, isHeaderName e.name = true → pyStrip e.text ≠ k) :
    lookupDict (extractLoop xs ch cc d) k = lookupDict d k := by
  induction xs generalizing ch cc d with
  | nil =>
    simp only [extractLoop]
    exact lookupDict_commitSection_preserve d ch cc k hch
  | cons e rest ih =>
    cases h1 : isHeaderName e.name with
    | true =>
      rw [extractLoop_header e rest ch cc d h1]
      rw [ih (some (pyStrip e.text)) [] (commitSection d ch cc) ?hch2 ?hxs2]
      case hch2 =>
        intro _ hh
        exact hxs e (List.mem_cons_self e rest) h1 (by simpa using hh)
      case hxs2 =>
        intro e1 he1 hhe1
        exact hxs e1 (List.mem_cons_of_mem e he1) hhe1
      exact lookupDict_commitSection_preserve d ch cc k hch
    | false =>
      rw [extractLoop_step_other e rest ch cc d h1]
      by_cases h2 : (decide (e.name = "p") && pyTruthy ch) = true
      · rw [if_pos h2]
        exact ih ch (cc ++ [pyStrip e.text]) d hch
          (fun e1 he1 => hxs e1 (List.mem_cons_of_mem e he1))
      · rw [if_neg h2]
        exact ih ch cc d hch (fun e1 he1 => hxs e1 (List.mem_cons_of_mem e he1))

/-- Committing never creates the empty-string key, because empty pending
headers are falsy. -/
theorem empty_not_mem_keys_commitSection (d : List (String × String))
    (ch : Option String) (cc : List String) (hd : "" ∉ keys d) :
    "" ∉ keys (commitSection d ch cc) := by
  simp only [commitSection]
  cases hc : pyTruthy ch
  · simpa
  · simp only [if_pos rfl]
    intro hmem
    rcases (mem_keys_dictInsert d _ _ "").1 hmem with hh | hh
    · cases ch with
      | none => simp [pyTruthy] at hc
      | some s =>
        simp only [pyTruthy, decide_eq_true_eq] at hc
        exact hc hh.symm
    · exact hd hh

/-- The scan never creates the empty-string key. -/
theorem empty_not_mem_keys_extractLoop (xs : List Element) (ch : Option String)
    (cc : List String) (d : List (String × String))
    (hd : "" ∉ keys d) : "" ∉ keys (extractLoop xs ch cc d) := by
  induction xs generalizing ch cc d with
  | nil =>
    simp only [extractLoop]
    exact empty_not_mem_keys_commitSection d ch cc hd
  | cons e rest ih =>
    cases h1 : isHeaderName e.name with
    | true =>
      rw [extractLoop_header e rest ch cc d h1]
      exact ih _ _ _ (empty_not_mem_keys_commitSection d ch cc hd)
    | false =>
      rw [extractLoop_step_other e rest ch cc d h1]
      by_cases h2 : (decide (e.name = "p") && pyTruthy ch) = true
      · rw [if_pos h2]
        exact ih ch (cc ++ [pyStrip e.text]) d hd
      · rw [if_neg h2]
        exact ih ch cc d hd

/-- One block steps the scan: commit the previous section, set the header, and
collect the paragraphs (only when the new header is truthy). -/
theorem extractLoop_block (b : Block) (rest : List Element) (ch : Option String)
    (cc : List String) (d : List (String × String))
    (hname : isHeaderName b.hname = true) :
    extractLoop (blockElems b ++ rest) ch cc d =
      extractLoop rest (some (pyStrip b.htext))
        (if nonEmptyHeader b then b.paras.map pyStrip else [])
        (commitSection d ch cc) := by
  have h1 : blockElems b ++ rest =
      (⟨b.hname, b.htext⟩ : Element) :: (b.paras.map (fun t => ⟨"p", t⟩) ++ rest) := by
    simp [blockElems]
  rw [h1, extractLoop_header _ _ ch cc d hname,
    extractLoop_paras b.paras rest (some (pyStrip b.htext)) [] (commitSection d ch cc)]
  cases hne : pyTruthy (some (pyStrip b.htext))
  · simp only [pyTruthy] at hne
    simp [nonEmptyHeader, hne]
  · simp only [pyTruthy] at hne
    simp [nonEmptyHeader, hne]

/-- The scan of a blockified document is a fold of `insBlock` over the blocks
whose headers are truthy; empty-trimmed headers contribute nothing. -/
theorem extractLoop_docOfBlocks (blocks : List Block) (ch : Option String)
    (cc : List String) (d : List (String × String))
    (hnames : ∀ b ∈ blocks, isHeaderName b.hname = true) :
    extractLoop (docOfBlocks blocks) ch cc d =
      (blocks.filter nonEmptyHeader).foldl insBlock (commitSection d ch cc) := by
  induction blocks generalizing ch cc d with
  | nil => simp [docOfBlocks, extractLoop]
  | cons b bs ih =>
    have hb : isHeaderName b.hname = true := hnames b (List.mem_cons_self b bs)
    have hbs : ∀ b1 ∈ bs, isHeaderName b1.hname = true :=
      fun b1 h1 => hnames b1 (List.mem_cons_of_mem b h1)
    rw [docOfBlocks, extractLoop_block b (docOfBlocks bs) ch cc d hb,
      ih _ _ _ hbs]
    cases hne : nonEmptyHeader b
    · have hfalse : pyStrip b.htext = "" := by
        simpa [nonEmptyHeader] using hne
      rw [List.filter_cons_of_neg (by simp [hne])]
      simp [commitSection, pyTruthy, hfalse]
    · have htrue : pyStrip b.htext ≠ "" := by
        simpa [nonEmptyHeader] using hne
      rw [List.filter_cons_of_pos (by simp [hne])]
      rw [List.foldl_cons]
      congr 1
      simp only [if_pos rfl]
      rw [commitSection_some_ne _ _ _ htrue]
      simp [insBlock, sectionText]

/-- Every element of a blockified document passes the `find_all` filter. -/
theorem filter_isRecognized_docOfBlocks (blocks : List Block)
    (hnames : ∀ b ∈ blocks, isHeaderName b.hname = true) :
    (docOfBlocks blocks).filter isRecognized = docOfBlocks blocks := by
  induction blocks with
  | nil => simp [docOfBlocks]
  | cons b bs ih =>
    have hb : isHeaderName b.hname = true := hnames b (List.mem_cons_self b bs)
    have hbs : ∀ b1 ∈ bs, isHeaderName b1.hname = true :=
      fun b1 h1 => hnames b1 (List.mem_cons_of_mem b h1)
    rw [docOfBlocks, List.filter_append, ih hbs]
    congr 1
    rw [List.filter_eq_self]
    intro e he
    simp only [blockElems, List.mem_cons, List.mem_map] at he
    rcases he with he | ⟨t, _, he⟩
    · subst he
      simp [isRecognized, hb]
    · subst he
      simp [isRecognized, isHeaderName]

/-- The extractor on a blockified document is the fold of the truthy blocks
into an empty dict. -/
theorem extract_docOfBlocks (blocks : List Block)
    (hnames : ∀ b ∈ blocks, isHeaderName b.hname = true) :
    extract_headers_and_content (docOfBlocks blocks) =
      (blocks.filter nonEmptyHeader).foldl insBlock [] := by
  rw [extract_headers_and_content, filter_isRecognized_docOfBlocks blocks hnames,
    extractLoop_docOfBlocks blocks none [] [] hnames, commitSection_none]

/-! ### Facts about the fold of committed blocks -/

theorem mem_keys_foldl_insBlock (blocks : List Block) (d : List (String × String))
    (a : String) :
    a ∈ keys (blocks.foldl insBlock d) ↔
      a ∈ keys d ∨ ∃ b ∈ blocks, pyStrip b.htext = a := by
  induction blocks generalizing d with
  | nil => simp
  | cons b bs ih =>
    rw [List.foldl_cons, ih]
    simp only [insBlock]
    rw [mem_keys_dictInsert]
    constructor
    · rintro ((h | h) | h)
      · exact Or.inr ⟨b, List.mem_cons_self b bs, h.symm⟩
      · exact Or.inl h
      · rcases h with ⟨b1, h1, h2⟩
        exact Or.inr ⟨b1, List.mem_cons_of_mem b h1, h2⟩
    · rintro (h | ⟨b1, h1, h2⟩)
      · exact Or.inl (Or.inr h)
      · rcases List.mem_cons.1 h1 with h1 | h1
        · subst h1
          exact Or.inl (Or.inl h2.symm)
        · exact Or.inr ⟨b1, h1, h2⟩

theorem nodup_keys_foldl_insBlock (blocks : List Block) (d : List (String × String))
    (hd : (keys d).Nodup) : (keys (blocks.foldl insBlock d)).Nodup := by
  induction blocks generalizing d with
  | nil => exact hd
  | cons b bs ih =>
    rw [List.foldl_cons]
    exact ih _ (nodup_keys_dictInsert _ _ _ hd)

theorem length_keys_foldl_insBlock_le (blocks : List Block)
    (d : List (String × String)) :
    (keys (blocks.foldl insBlock d)).length ≤ (keys d).length + blocks.length := by
  induction blocks generalizing d with
  | nil => simp
  | cons b bs ih =>
    rw [List.foldl_cons]
    calc (keys (bs.foldl insBlock (insBlock d b))).length
        ≤ (keys (insBlock d b)).length + bs.length := ih _
      _ ≤ ((keys d).length + 1) + bs.length := by
          have := length_keys_dictInsert_le d (pyStrip b.htext) (sectionText b.paras)
          simp only [insBlock]
          omega
      _ = (keys d).length + (b :: bs).length := by
          simp only [List.length_cons]
          omega

theorem length_keys_foldl_insBlock_eq (blocks : List Block)
    (d : List (String × String))
    (hnodup : (blocks.map (fun b => pyStrip b.htext)).Nodup)
    (hdisj : ∀ b ∈ blocks, pyStrip b.htext ∉ keys d) :
    (keys (blocks.foldl insBlock d)).length = (keys d).length + blocks.length := by
  induction blocks generalizing d with
  | nil => simp
  | cons b bs ih =>
    rw [List.foldl_cons]
    have hb : pyStrip b.htext ∉ keys d := hdisj b (List.mem_cons_self b bs)
    have hkeys : keys (insBlock d b) = keys d ++ [pyStrip b.htext] :=
      keys_dictInsert_of_not_mem d _ _ hb
    simp only [List.map_cons, List.nodup_cons] at hnodup
    rw [ih (insBlock d b) hnodup.2]
    · rw [hkeys]
      simp only [List.length_append, List.length_cons, List.length_nil]
      omega
    · intro b1 h1
      rw [hkeys]
      simp only [List.mem_append, List.mem_singleton]
      rintro (h | h)
      · exact hdisj b1 (List.mem_cons_of_mem b h1) h
      · exact hnodup.1 (h ▸ List.mem_map_of_mem (fun b2 => pyStrip b2.htext) h1)

theorem foldl_lastFor_init (bs : List Block) (k : String) (a : Option Block) :
    bs.foldl (fun acc b => if pyStrip b.htext = k then some b else acc) a =
      match lastBlockFor bs k with
      | some b => some b
      | none => a := by
  induction bs generalizing a with
  | nil => simp [lastBlockFor]
  | cons b bs ih =>
    rw [List.foldl_cons]
    rw [ih]
    conv_rhs => rw [lastBlockFor, List.foldl_cons]
    rw [show (bs.foldl (fun acc b => if pyStrip b.htext = k then some b else acc)
      (if pyStrip b.htext = k then some b else none)) =
      match lastBlockFor bs k with
      | some b1 => some b1
      | none => (if pyStrip b.htext = k then some b else none) from ih _]
    cases lastBlockFor bs k with
    | some b1 => simp
    | none => by_cases hk : pyStrip b.htext = k <;> simp [hk]

theorem lookupDict_foldl_insBlock (blocks : List Block) (d : List (String × String))
    (k : String) :
    lookupDict (blocks.foldl insBlock d) k =
      match lastBlockFor blocks k with
      | some b => some (sectionText b.paras)
      | none => lookupDict d k := by
  induction blocks generalizing d with
  | nil => simp [lastBlockFor]
  | cons b bs ih =>
    rw [List.foldl_cons, ih]
    conv_rhs => rw [lastBlockFor, List.foldl_cons]
    rw [show (bs.foldl (fun acc b => if pyStrip b.htext = k then some b else acc)
      (if pyStrip b.htext = k then some b else none)) =
      match lastBlockFor bs k with
      | some b1 => some b1
      | none => (if pyStrip b.htext = k then some b else none) from
      foldl_lastFor_init bs k _]
    cases lastBlockFor bs k with
    | some b1 => simp
    | none =>
      by_cases hk : pyStrip b.htext = k
      · simp only [if_pos hk, insBlock, hk]
        simp [lookupDict_dictInsert_self]
      · simp only [if_neg hk, insBlock]
        simp [lookupDict_dictInsert_ne d _ _ k (fun hh => hk hh.symm)]

/-- Filtering out the falsy blocks does not change which block last wrote a
nonempty key. -/
theorem lastBlockFor_filter (blocks : List Block) (k : String) (hk : k ≠ "") :
    lastBlockFor (blocks.filter nonEmptyHeader) k = lastBlockFor blocks k := by
  induction blocks with
  | nil => simp
  | cons b bs ih =>
    have hcons : lastBlockFor (b :: bs) k =
        match lastBlockFor bs k with
        | some b1 => some b1
        | none => (if pyStrip b.htext = k then some b else none) := by
      rw [lastBlockFor, List.foldl_cons]
      exact foldl_lastFor_init bs k _
    cases hne : nonEmptyHeader b
    · have hempty : pyStrip b.htext = "" := by simpa [nonEmptyHeader] using hne
      rw [List.filter_cons_of_neg (by simp [hne]), ih, hcons]
      have : ¬ pyStrip b.htext = k := by rw [hempty]; exact fun hh => hk hh.symm
      cases lastBlockFor bs k <;> simp [this]
    · have hcons2 : lastBlockFor (b :: bs.filter nonEmptyHeader) k =
          match lastBlockFor (bs.filter nonEmptyHeader) k with
          | some b1 => some b1
          | none => (if pyStrip b.htext = k then some b else none) := by
        rw [lastBlockFor, List.foldl_cons]
        exact foldl_lastFor_init _ k _
      rw [List.filter_cons_of_pos (by simp [hne]), hcons2, ih, hcons]

/-! ### Facts about the fetcher and the request pipeline -/

theorem except_bind_ok {α β : Type} (a : α) (f : α → Except String β) :
    (Except.ok a : Except String α) >>= f = f a := rfl

theorem except_bind_error {α β : Type} (e : String) (f : α → Except String β) :
    (Except.error e : Except String α) >>= f = Except.error e := rfl

/-- On any non-200 response the fetcher returns the formatted error string. -/
theorem fetch_non200 (resp : HttpResponse) (h : resp.status_code ≠ 200) :
    get_confluence_page_content resp =
      Except.ok (FetchReturn.errString
        ("Error: " ++ toString resp.status_code ++ " - " ++ resp.text)) := by
  simp [get_confluence_page_content, h]

/-- Unpacking a string whose length is not exactly 2 raises `ValueError`. -/
theorem unpackPair_errString (s : String) (h : s.length ≠ 2) :
    unpackPair (FetchReturn.errString s) = Except.error "ValueError" := by
  have hlen : s.data.length ≠ 2 := h
  rw [unpackPair]
  cases hd : s.data with
  | nil => rfl
  | cons c0 tl =>
    cases htl : tl with
    | nil => rfl
    | cons c1 tl2 =>
      cases htl2 : tl2 with
      | nil =>
        exfalso
        apply hlen
        rw [hd, htl, htl2]
        rfl
      | cons c2 tl3 => rfl

/-- The fetcher's error string always starts with the 7-character marker
`"Error: "`, so its length is never 2. -/
theorem errString_length_ne_two (code : Nat) (t : String) :
    ("Error: " ++ toString code ++ " - " ++ t).length ≠ 2 := by
  have h1 : ("Error: " ++ toString code ++ " - " ++ t).length =
      ("Error: ").length + (toString code).length + (" - ").length + t.length := by
    simp [String.length_append]
  rw [h1]
  have h2 : ("Error: ").length = 7 := rfl
  have h3 : (" - ").length = 3 := rfl
  omega

/-- Whenever every wiki response has a non-200 status, the pipeline raises
(at the tuple unpacking at the latest). -/
theorem endpointPipeline_error_of_wiki_non200 (env : Env)
    (hw : ∀ pid, ∀ r, env.wiki pid = Except.ok r → r.status_code ≠ 200)
    (tmpl : String → String → String) :
    ∃ e, endpointPipeline env tmpl = Except.error e := by
  rw [endpointPipeline]
  cases hb : env.body with
  | error e => exact ⟨e, by rw [except_bind_error]⟩
  | ok body =>
    rw [except_bind_ok]
    cases hp : pyDictGet body "page_id" with
    | error e => exact ⟨e, by rw [except_bind_error]⟩
    | ok pid =>
      rw [except_bind_ok]
      cases hf : pyDictGet body "file_key" with
      | error e => exact ⟨e, by rw [except_bind_error]⟩
      | ok fk =>
        rw [except_bind_ok, handle_code_review_request]
        cases hs : env.s3_get fk with
        | error e => exact ⟨e, by rw [except_bind_error]⟩
        | ok code =>
          rw [except_bind_ok]
          cases hwk : env.wiki pid with
          | error e => exact ⟨e, by rw [except_bind_error]⟩
          | ok resp =>
            rw [except_bind_ok]
            rw [fetch_non200 resp (hw pid resp hwk), except_bind_ok]
            rw [unpackPair_errString _ (errString_length_ne_two _ _),
              except_bind_error]
            exact ⟨"ValueError", rfl⟩

/-- Paragraph elements always pass the `find_all` filter. -/
theorem filter_isRecognized_paras (ps : List String) :
    (ps.map (fun t => (⟨"p", t⟩ : Element))).filter isRecognized =
      ps.map (fun t => ⟨"p", t⟩) := by
  rw [List.filter_eq_self]
  intro e he
  rcases List.mem_map.1 he with ⟨t, _, rfl⟩
  simp [isRecognized]

/-! ### Claim theorems -/

/-- Claim C3: the extractor is total (here, a total function by
construction); the empty element stream yields an empty map, and a stream
with no recognized header or paragraph tags yields an empty map. -/
theorem C3_extractor_total_empty :
    extract_headers_and_content [] = [] ∧
    ∀ elems : List Element, (∀ e ∈ elems, isRecognized e = false) →
      extract_headers_and_content elems = [] := by
  constructor
  · rfl
  · intro elems h
    rw [extract_headers_and_content, List.filter_eq_nil_iff.mpr ?hnone]
    case hnone =>
      intro e he
      simp [h e he]
    rfl

/-- Witness for C3 at a stream with only unrecognized tags. -/
theorem C3_witness :
    extract_headers_and_content [⟨"div", "x"⟩, ⟨"span", "y"⟩] = [] :=
  C3_extractor_total_empty.2 [⟨"div", "x"⟩, ⟨"span", "y"⟩] (by decide)

/-- Claim C4: paragraphs before the first header contribute nothing — the
result is the same as without them — and a paragraph-only document yields an
empty map. -/
theorem C4_leading_paragraphs_dropped (ps : List String) (rest : List Element) :
    extract_headers_and_content (ps.map (fun t => ⟨"p", t⟩) ++ rest) =
      extract_headers_and_content rest ∧
    extract_headers_and_content (ps.map (fun t => ⟨"p", t⟩)) = [] := by
  constructor
  · rw [extract_headers_and_content, List.filter_append, filter_isRecognized_paras,
      extractLoop_paras ps (rest.filter isRecognized) none [] []]
    simp [pyTruthy, extract_headers_and_content]
  · rw [extract_headers_and_content, filter_isRecognized_paras]
    have h := extractLoop_paras ps [] none [] []
    rw [List.append_nil] at h
    rw [h]
    simp [pyTruthy, extractLoop, commitSection]

/-- Claim C6: on every non-success (non-200) response the Document Fetcher
returns — without raising — the error-description string embedding the
status code and the response body. -/
theorem C6_fetch_error_string (resp : HttpResponse) (h : resp.status_code ≠ 200) :
    get_confluence_page_content resp =
      Except.ok (FetchReturn.errString
        ("Error: " ++ toString resp.status_code ++ " - " ++ resp.text)) :=
  fetch_non200 resp h

/-- Witness for C6 at a concrete 404 response. -/
theorem C6_witness :
    get_confluence_page_content ⟨404, "Not Found", none⟩ =
      Except.ok (FetchReturn.errString "Error: 404 - Not Found") :=
  C6_fetch_error_string ⟨404, "Not Found", none⟩ (by decide)

/-- Claim C8: for each of the two endpoints, every exception raised by any
step of the pipeline is converted to the single fixed failure response
(status 500, detail "Something went wrong"), and on success the endpoint
returns the model text. -/
theorem C8_endpoint_error_policy (env : Env) :
    (((∃ e, endpointPipeline env agent_backend_system_prompt_template =
          Except.error e) ∧
        backend_agent env = EndpointResult.failure 500 "Something went wrong") ∨
      (∃ t, endpointPipeline env agent_backend_system_prompt_template =
          Except.ok t ∧ backend_agent env = EndpointResult.success t)) ∧
    (((∃ e, endpointPipeline env agent_frontend_system_prompt_template =
          Except.error e) ∧
        frontend_agent env = EndpointResult.failure 500 "Something went wrong") ∨
      (∃ t, endpointPipeline env agent_frontend_system_prompt_template =
          Except.ok t ∧ frontend_agent env = EndpointResult.success t)) := by
  constructor
  · cases hp : endpointPipeline env agent_backend_system_prompt_template with
    | ok t => exact Or.inr ⟨t, rfl, by simp [backend_agent, hp]⟩
    | error e => exact Or.inl ⟨⟨e, rfl⟩, by simp [backend_agent, hp]⟩
  · cases hp : endpointPipeline env agent_frontend_system_prompt_template with
    | ok t => exact Or.inr ⟨t, rfl, by simp [frontend_agent, hp]⟩
    | error e => exact Or.inl ⟨⟨e, rfl⟩, by simp [frontend_agent, hp]⟩

/-- Counterexample to C1 as stated: a single header whose text is whitespace
(`<h1>  </h1><p>x</p>`) has no repeated header text, yet the Section Map has
0 keys rather than the claimed 1 — Python's truthiness drops the
empty-trimmed header together with its paragraphs. -/
theorem C1_counterexample :
    extract_headers_and_content [⟨"h1", "  "⟩, ⟨"p", "x"⟩] = [] ∧
    (keys (extract_headers_and_content [⟨"h1", "  "⟩, ⟨"p", "x"⟩])).length ≠ 1 := by
  decide

/-- Claim C1 (amended: every header's trimmed text must be nonempty): for a
document of blocks `header_i` followed by paragraphs, the Section Map's keys
are exactly the distinct trimmed header texts (unique, hence n keys, fewer
when texts repeat), and the value under each key is the trimmed,
single-space-joined concatenation of the trimmed paragraph texts of the last
block carrying that trimmed header text. -/
theorem C1_sections_extracted (blocks : List Block)
    (hnames : ∀ b ∈ blocks, isHeaderName b.hname = true)
    (htrims : ∀ b ∈ blocks, pyStrip b.htext ≠ "") :
    (keys (extract_headers_and_content (docOfBlocks blocks))).Nodup ∧
    (∀ a, a ∈ keys (extract_headers_and_content (docOfBlocks blocks)) ↔
        ∃ b ∈ blocks, pyStrip b.htext = a) ∧
    (keys (extract_headers_and_content (docOfBlocks blocks))).length ≤
        blocks.length ∧
    ((blocks.map (fun b => pyStrip b.htext)).Nodup →
      (keys (extract_headers_and_content (docOfBlocks blocks))).length =
        blocks.length) ∧
    (∀ k, lookupDict (extract_headers_and_content (docOfBlocks blocks)) k =
        (lastBlockFor blocks k).map (fun b => sectionText b.paras)) := by
  have hfilter : blocks.filter nonEmptyHeader = blocks := by
    rw [List.filter_eq_self]
    intro b hb
    simp [nonEmptyHeader, htrims b hb]
  have hext : extract_headers_and_content (docOfBlocks blocks) =
      blocks.foldl insBlock [] := by
    rw [extract_docOfBlocks blocks hnames, hfilter]
  refine ⟨?_, ?_, ?_, ?_, ?_⟩
  · rw [hext]
    exact nodup_keys_foldl_insBlock blocks [] (by simp [keys])
  · intro a
    rw [hext, mem_keys_foldl_insBlock]
    simp [keys]
  · rw [hext]
    have h := length_keys_foldl_insBlock_le blocks []
    simpa [keys] using h
  · intro hnd
    rw [hext]
    have h := length_keys_foldl_insBlock_eq blocks [] hnd
      (by intro b hb; simp [keys])
    simpa [keys] using h
  · intro k
    rw [hext, lookupDict_foldl_insBlock]
    cases lastBlockFor blocks k <;> simp [lookupDict]

/-- Witness for C1 at a two-block document with distinct nonempty headers. -/
theorem C1_witness :
    (keys (extract_headers_and_content (docOfBlocks
      [⟨"h1", " A ", ["x", " y "]⟩, ⟨"h2", "B", []⟩]))).length = 2 :=
  (C1_sections_extracted [⟨"h1", " A ", ["x", " y "]⟩, ⟨"h2", "B", []⟩]
    (by decide) (by decide)).2.2.2.1 (by decide)

/-- Counterexample to C2 as stated: in `<h1> </h1><h1>  </h1>` the trimmed
header text `""` occurs twice, yet it is not a key of the Section Map at all
(claimed: exactly once) — falsy headers are never committed. -/
theorem C2_counterexample :
    (keys (extract_headers_and_content [⟨"h1", " "⟩, ⟨"h1", "  "⟩])).count "" ≠ 1 := by
  decide

/-- Claim C2 (amended: the repeated trimmed header text must be nonempty):
when the same trimmed header text occurs in several blocks it is a key
exactly once, its value is the content of the last such block
(last-write-wins), and on the spec's concrete document
`<h2>Style</h2><p>Use semicolons.</p><h2>Style</h2><p>Use 2-space indent.</p>`
the Section Map is exactly the singleton mapping Style to the second text. -/
theorem C2_last_write_wins (blocks : List Block) (k : String)
    (hnames : ∀ b ∈ blocks, isHeaderName b.hname = true)
    (hk : k ≠ "")
    (hrep : 2 ≤ (blocks.map (fun b => pyStrip b.htext)).count k) :
    (keys (extract_headers_and_content (docOfBlocks blocks))).count k = 1 ∧
    lookupDict (extract_headers_and_content (docOfBlocks blocks)) k =
      (lastBlockFor blocks k).map (fun b => sectionText b.paras) ∧
    extract_headers_and_content
      [⟨"h2", "Style"⟩, ⟨"p", "Use semicolons."⟩, ⟨"h2", "Style"⟩,
       ⟨"p", "Use 2-space indent."⟩] = [("Style", "Use 2-space indent.")] := by
  have hext : extract_headers_and_content (docOfBlocks blocks) =
      (blocks.filter nonEmptyHeader).foldl insBlock [] :=
    extract_docOfBlocks blocks hnames
  have hmemmap : k ∈ blocks.map (fun b => pyStrip b.htext) :=
    List.count_pos_iff.mp (by omega)
  obtain ⟨b0, hb0, hb0k⟩ := List.mem_map.1 hmemmap
  have hb0f : b0 ∈ blocks.filter nonEmptyHeader :=
    List.mem_filter.2 ⟨hb0, by simp [nonEmptyHeader, hb0k, hk]⟩
  have hmemkeys : k ∈ keys (extract_headers_and_content (docOfBlocks blocks)) := by
    rw [hext, mem_keys_foldl_insBlock]
    exact Or.inr ⟨b0, hb0f, hb0k⟩
  have hnd : (keys (extract_headers_and_content (docOfBlocks blocks))).Nodup := by
    rw [hext]
    exact nodup_keys_foldl_insBlock _ [] (by simp [keys])
  refine ⟨List.count_eq_one_of_mem hnd hmemkeys, ?_, by decide⟩
  rw [hext, lookupDict_foldl_insBlock, lastBlockFor_filter blocks k hk]
  cases lastBlockFor blocks k <;> simp [lookupDict]

/-- Witness for C2 at a document repeating the header Style. -/
theorem C2_witness :
    (keys (extract_headers_and_content (docOfBlocks
      [⟨"h2", "Style", ["a"]⟩, ⟨"h2", "Style", ["b"]⟩]))).count "Style" = 1 :=
  (C2_last_write_wins [⟨"h2", "Style", ["a"]⟩, ⟨"h2", "Style", ["b"]⟩] "Style"
    (by decide) (by decide) (by decide)).1

/-- Counterexample to C5 as stated: in `<h1>A</h1><h1>A</h1><p>x</p>` the
first header is immediately followed by another header, yet `A` maps to
`"x"`, not `""` — the later occurrence of the same header text overwrites
the empty commit. -/
theorem C5_counterexample :
    lookupDict (extract_headers_and_content
      [⟨"h1", "A"⟩, ⟨"h1", "A"⟩, ⟨"p", "x"⟩]) "A" ≠ some "" := by
  decide

/-- Claim C5 (amended: the header's trimmed text must be nonempty and must
not recur as a later header's trimmed text): a header immediately followed —
among recognized tags — by another header or by the end of the document maps
to the empty string. -/
theorem C5_empty_section (pre post : List Element) (hn h : String)
    (hname : isHeaderName hn = true)
    (htrim : pyStrip h ≠ "")
    (hnext : ∀ e ∈ (post.filter isRecognized).take 1, isHeaderName e.name = true)
    (hnorepeat : ∀ e ∈ post, isHeaderName e.name = true →
      pyStrip e.text ≠ pyStrip h) :
    lookupDict (extract_headers_and_content (pre ++ ⟨hn, h⟩ :: post))
      (pyStrip h) = some "" := by
  have hrec : isRecognized ⟨hn, h⟩ = true := by simp [isRecognized, hname]
  rw [extract_headers_and_content, List.filter_append,
    List.filter_cons_of_pos hrec, extractLoop_append]
  rw [extractLoop_header _ _ _ _ _ hname]
  cases hfp : post.filter isRecognized with
  | nil =>
    simp only [extractLoop]
    rw [commitSection_some_ne _ _ _ htrim]
    exact lookupDict_dictInsert_self _ _ _
  | cons e rest =>
    have he_mem : e ∈ post :=
      List.mem_of_mem_filter (hfp ▸ List.mem_cons_self e rest)
    have he_hdr : isHeaderName e.name = true := by
      apply hnext e
      rw [hfp]
      simp
    rw [extractLoop_header _ _ _ _ _ he_hdr]
    rw [commitSection_some_ne _ _ _ htrim]
    rw [lookupDict_extractLoop_preserve _ _ _ _ _ ?hch ?hxs]
    case hch =>
      intro _
      exact hnorepeat e he_mem he_hdr
    case hxs =>
      intro e1 he1 hh1
      have he1p : e1 ∈ post :=
        List.mem_of_mem_filter (hfp ▸ List.mem_cons_of_mem e he1)
      exact hnorepeat e1 he1p hh1
    exact lookupDict_dictInsert_self _ _ _

/-- Witness for C5: a header immediately followed by a different header. -/
theorem C5_witness :
    lookupDict (extract_headers_and_content
      [⟨"h2", "Intro"⟩, ⟨"h2", "Next"⟩, ⟨"p", "y"⟩]) "Intro" = some "" :=
  C5_empty_section [] [⟨"h2", "Next"⟩, ⟨"p", "y"⟩] "h2" "Intro"
    (by decide) (by decide) (by decide) (by decide)

/-- Claim C9 (implicit): a header whose trimmed text is empty is falsy, so
(i) the paragraphs after it are silently dropped (the result is as if they
were absent), (ii) at the end of the document it changes nothing beyond
committing the preceding section, and (iii) the empty string is never a key
of any Section Map. -/
theorem C9_empty_header_falsy :
    (∀ (xs rest : List Element) (hn h : String) (ps : List String),
      isHeaderName hn = true → pyStrip h = "" →
      extract_headers_and_content
          (xs ++ ⟨hn, h⟩ :: (ps.map (fun t => ⟨"p", t⟩) ++ rest)) =
        extract_headers_and_content (xs ++ ⟨hn, h⟩ :: rest)) ∧
    (∀ (xs : List Element) (hn h : String),
      isHeaderName hn = true → pyStrip h = "" →
      extract_headers_and_content (xs ++ [⟨hn, h⟩]) =
        extract_headers_and_content xs) ∧
    (∀ elems : List Element, "" ∉ keys (extract_headers_and_content elems)) := by
  refine ⟨?_, ?_, ?_⟩
  · intro xs rest hn h ps hname hempty
    have hrec : isRecognized ⟨hn, h⟩ = true := by simp [isRecognized, hname]
    rw [extract_headers_and_content, extract_headers_and_content,
      List.filter_append, List.filter_cons_of_pos hrec, List.filter_append,
      filter_isRecognized_paras, List.filter_append,
      List.filter_cons_of_pos hrec]
    rw [extractLoop_append, extractLoop_append,
      extractLoop_header _ _ _ _ _ hname, extractLoop_header _ _ _ _ _ hname,
      hempty, extractLoop_paras]
    simp [pyTruthy]
  · intro xs hn h hname hempty
    have hrec : isRecognized ⟨hn, h⟩ = true := by simp [isRecognized, hname]
    rw [extract_headers_and_content, extract_headers_and_content,
      List.filter_append, List.filter_cons_of_pos hrec, extractLoop_append,
      extractLoop_header _ _ _ _ _ hname, hempty]
    conv_rhs => rw [extractLoop_eq_commit]
    simp only [extractLoop, List.filter_nil]
    rw [commitSection_some_empty]
  · intro elems
    exact empty_not_mem_keys_extractLoop _ none [] [] (by simp [keys])

/-- Witness for C9: the whitespace header and its paragraph vanish while the
preceding section is still committed. -/
theorem C9_witness :
    extract_headers_and_content
        [⟨"h1", "A"⟩, ⟨"p", "a"⟩, ⟨"h2", " "⟩, ⟨"p", "dropped"⟩, ⟨"h1", "B"⟩] =
      extract_headers_and_content
        [⟨"h1", "A"⟩, ⟨"p", "a"⟩, ⟨"h2", " "⟩, ⟨"h1", "B"⟩] :=
  C9_empty_header_falsy.1 [⟨"h1", "A"⟩, ⟨"p", "a"⟩] [⟨"h1", "B"⟩] "h2" " "
    ["dropped"] (by decide) (by decide)

theorem except_map_ok {α β : Type} (a : α) (f : α → β) :
    (Except.ok a : Except String α).map f = Except.ok (f a) := rfl

/-- Counterexample to C7 as stated: with the path absent the fetcher returns
the literal "No content found." (capitalized, with a trailing period), not
the claimed literal "no content found". -/
theorem C7_counterexample :
    get_confluence_page_content ⟨200, "", some (JValue.obj [])⟩ =
      Except.ok (FetchReturn.pair none (JValue.str "No content found.")) ∧
    "No content found." ≠ "no content found" :=
  ⟨rfl, by decide⟩

/-- Claim C7 (amended: the fallback literal is "No content found."): on a
200 response the fetcher returns the pair of the page title and the value at
the nested path body.storage.value of the response JSON; when any key of
that path is absent the content falls back to the literal instead of
failing. -/
theorem C7_nested_path (resp : HttpResponse) (fs : List (String × JValue))
    (h200 : resp.status_code = 200)
    (hjson : resp.jsonBody = some (JValue.obj fs)) :
    (∀ bs ss v, jLookup fs "body" = some (JValue.obj bs) →
      jLookup bs "storage" = some (JValue.obj ss) →
      jLookup ss "value" = some v →
      get_confluence_page_content resp =
        Except.ok (FetchReturn.pair (jLookup fs "title") v)) ∧
    (jLookup fs "body" = none →
      get_confluence_page_content resp =
        Except.ok (FetchReturn.pair (jLookup fs "title")
          (JValue.str "No content found."))) ∧
    (∀ bs, jLookup fs "body" = some (JValue.obj bs) →
      jLookup bs "storage" = none →
      get_confluence_page_content resp =
        Except.ok (FetchReturn.pair (jLookup fs "title")
          (JValue.str "No content found."))) ∧
    (∀ bs ss, jLookup fs "body" = some (JValue.obj bs) →
      jLookup bs "storage" = some (JValue.obj ss) →
      jLookup ss "value" = none →
      get_confluence_page_content resp =
        Except.ok (FetchReturn.pair (jLookup fs "title")
          (JValue.str "No content found."))) := by
  refine ⟨?_, ?_, ?_, ?_⟩
  · intro bs ss v h1 h2 h3
    simp [get_confluence_page_content, h200, hjson, pyDictGetD, pyDictGet,
      h1, h2, h3, except_bind_ok, except_map_ok]
  · intro h1
    simp [get_confluence_page_content, h200, hjson, pyDictGetD, pyDictGet,
      h1, except_bind_ok, except_map_ok, jLookup]
  · intro bs h1 h2
    simp [get_confluence_page_content, h200, hjson, pyDictGetD, pyDictGet,
      h1, h2, except_bind_ok, except_map_ok, jLookup]
  · intro bs ss h1 h2 h3
    simp [get_confluence_page_content, h200, hjson, pyDictGetD, pyDictGet,
      h1, h2, h3, except_bind_ok, except_map_ok, jLookup]

/-- Witness for C7 at a concrete 200 response with the full nested path. -/
theorem C7_witness :
    get_confluence_page_content ⟨200, "", some (JValue.obj
      [("title", JValue.str "T"),
       ("body", JValue.obj
         [("storage", JValue.obj [("value", JValue.str "<h1>A</h1>")])])])⟩ =
      Except.ok (FetchReturn.pair (some (JValue.str "T"))
        (JValue.str "<h1>A</h1>")) :=
  (C7_nested_path ⟨200, "", some (JValue.obj
      [("title", JValue.str "T"),
       ("body", JValue.obj
         [("storage", JValue.obj [("value", JValue.str "<h1>A</h1>")])])])⟩
    [("title", JValue.str "T"),
     ("body", JValue.obj
       [("storage", JValue.obj [("value", JValue.str "<h1>A</h1>")])])]
    rfl rfl).1
    [("storage", JValue.obj [("value", JValue.str "<h1>A</h1>")])]
    [("value", JValue.str "<h1>A</h1>")]
    (JValue.str "<h1>A</h1>") rfl rfl rfl

/-- Claim C10 (implicit): a non-200 wiki response makes the fetcher return an
error string whose length is never 2, so the tuple unpacking
`title, content = ...` in the orchestrator raises ValueError, and with every
wiki response non-200 both endpoints answer the generic 500 failure. -/
theorem C10_error_string_unpacking :
    (∀ resp : HttpResponse, resp.status_code ≠ 200 →
      ∃ s, get_confluence_page_content resp =
          Except.ok (FetchReturn.errString s) ∧ s.length ≠ 2 ∧
        unpackPair (FetchReturn.errString s) = Except.error "ValueError") ∧
    (∀ env : Env,
      (∀ pid, ∀ r, env.wiki pid = Except.ok r → r.status_code ≠ 200) →
      backend_agent env = EndpointResult.failure 500 "Something went wrong" ∧
      frontend_agent env = EndpointResult.failure 500 "Something went wrong") := by
  constructor
  · intro resp h
    exact ⟨_, fetch_non200 resp h, errString_length_ne_two _ _,
      unpackPair_errString _ (errString_length_ne_two _ _)⟩
  · intro env hw
    obtain ⟨e1, he1⟩ := endpointPipeline_error_of_wiki_non200 env hw
      agent_backend_system_prompt_template
    obtain ⟨e2, he2⟩ := endpointPipeline_error_of_wiki_non200 env hw
      agent_frontend_system_prompt_template
    exact ⟨by simp [backend_agent, he1], by simp [frontend_agent, he2]⟩

/-- Witness for C10 at a 404 wiki response and a concrete environment. -/
theorem C10_witness :
    (∃ s, get_confluence_page_content ⟨404, "Not Found", none⟩ =
        Except.ok (FetchReturn.errString s) ∧ s.length ≠ 2 ∧
      unpackPair (FetchReturn.errString s) = Except.error "ValueError") ∧
    (backend_agent ⟨Except.ok (JValue.obj []), fun _ => Except.ok "code",
        fun _ => Except.ok ⟨404, "Not Found", none⟩, fun _ => [],
        fun _ _ => Except.ok "review"⟩ =
      EndpointResult.failure 500 "Something went wrong" ∧
    frontend_agent ⟨Except.ok (JValue.obj []), fun _ => Except.ok "code",
        fun _ => Except.ok ⟨404, "Not Found", none⟩, fun _ => [],
        fun _ _ => Except.ok "review"⟩ =
      EndpointResult.failure 500 "Something went wrong") :=
  ⟨C10_error_string_unpacking.1 ⟨404, "Not Found", none⟩ (by decide),
   C10_error_string_unpacking.2 _ (fun pid r hr => by cases hr; decide)⟩

end CRA
